import Mathlib

/-!
Verification of the layered configuration resolution engine of the rhc
repository (file internal/conf/config.go) against its specification.

Modelling conventions:

* TOML parsing is delegated by the source to the external BurntSushi
  library; a configuration document is therefore represented by its
  parse result (`Doc`): either `malformed` or `valid dto`, where the
  record `configDTO` mirrors the struct of the same name in the source.
* The filesystem is an explicit value (`FS`): `read` gives the outcome
  of `os.ReadFile` at a path, and `dir` gives the state of a directory
  as observed by the `os.Stat` / `os.ReadDir` pair in the source.
* `slog.Level` is an integer type in Go; the four constants are
  -4 (debug), 0 (info), 4 (warn) and 8 (error).
* `sort.Strings` sorts ascending in byte-wise lexicographic order; it
  is embedded as an insertion sort, which produces the same ascending
  reordering, because the sorted permutation of a list of strings is
  unique (the order on strings is total and antisymmetric, and equal
  strings are interchangeable).  Byte-wise comparison of UTF-8 strings
  agrees with the code-point comparison used by the Lean `String`
  order.
* `filepath.Join` is embedded as concatenation with a `/` separator;
  every joined path of one resolution run shares the directory prefix,
  so the lexicographic order of joined paths matches that of names.
* Go methods that mutate their receiver become functions returning the
  new value; the `panic` in the package initializer becomes the `none`
  result of `initConfiguration`.
-/

namespace Conf

/-- Mirror of `slog.LevelDebug`. -/
def LevelDebug : Int := -4

/-- Mirror of `slog.LevelInfo`. -/
def LevelInfo : Int := 0

/-- Mirror of `slog.LevelWarn`. -/
def LevelWarn : Int := 4

/-- Mirror of `slog.LevelError`. -/
def LevelError : Int := 8

/-- Mirror of struct `Config`: the immutable public configuration object. -/
structure Config where
  CADir    : String
  CertFile : String
  KeyFile  : String
  LogLevel : Int
deriving DecidableEq, Repr

/-- The zero value of the Go struct `Config`: empty strings and log
level 0 (which is the numeric value of `slog.LevelInfo`). -/
def zeroConfig : Config := { CADir := "", CertFile := "", KeyFile := "", LogLevel := 0 }

/-- Mirror of struct `configDTO`: one parsed configuration document,
where each field is either absent (`none`) or present with a value. -/
structure configDTO where
  CertFile : Option String
  KeyFile  : Option String
  LogLevel : Option String
  CADir    : Option String
deriving DecidableEq, Repr

/-- Mirror of method `Config.Update`: applies the present fields of a
`configDTO` onto a `Config`.  The `switch` on the log-level string is
mirrored by the chain of conditionals; a string matching no case leaves
the log level unchanged. -/
def Config.Update (c : Config) (dto : configDTO) : Config :=
  let c1 := match dto.CertFile with
    | some v => { c with CertFile := v }
    | none => c
  let c2 := match dto.KeyFile with
    | some v => { c1 with KeyFile := v }
    | none => c1
  let c3 := match dto.LogLevel with
    | some s =>
      if s = "DEBUG" then { c2 with LogLevel := LevelDebug }
      else if s = "INFO" then { c2 with LogLevel := LevelInfo }
      else if s = "WARN" then { c2 with LogLevel := LevelWarn }
      else if s = "ERROR" then { c2 with LogLevel := LevelError }
      else c2
    | none => c2
  match dto.CADir with
  | some v => { c3 with CADir := v }
  | none => c3

/-- The partial map from a log-level token to the `slog` level it names,
as read off the `switch` statement in `Config.Update`; used only to state
properties of `Config.Update`, never inside the embedding itself. -/
def levelOf (s : String) : Option Int :=
  if s = "DEBUG" then some LevelDebug
  else if s = "INFO" then some LevelInfo
  else if s = "WARN" then some LevelWarn
  else if s = "ERROR" then some LevelError
  else none

/-- A configuration document, represented by its parse result. -/
inductive Doc
  | malformed
  | valid (dto : configDTO)
deriving DecidableEq, Repr

/-- Outcome of `os.ReadFile` at one path. -/
inductive FileRead
  | notExist
  | readFailure
  | content (d : Doc)
deriving DecidableEq, Repr

/-- One entry returned by `os.ReadDir`. -/
structure DirEntry where
  name  : String
  isDir : Bool
deriving DecidableEq, Repr

/-- State of a directory as observed by `os.Stat` and `os.ReadDir`. -/
inductive DirState
  | notExist
  | readFailure
  | entries (es : List DirEntry)
deriving DecidableEq, Repr

/-- The filesystem as seen by one resolution run. -/
structure FS where
  read : String → FileRead
  dir  : String → DirState

/-- The errors `Read` can return, one per `return ..., err` site. -/
inductive ReadError
  | baselineParse
  | mainLoad
  | mainParse
  | dropInDirRead
  | dropInRead (path : String)
  | dropInParse (path : String)
deriving DecidableEq, Repr

/-- Mirror of struct `ConfigSource`. -/
structure ConfigSource where
  Path      : String
  DropInDir : String
deriving DecidableEq, Repr

/-- Mirror of `filepath.Join` as used on a drop-in directory and an
entry name. -/
def pathJoin (dir name : String) : String := dir ++ "/" ++ name

/-- Mirror of `strings.HasSuffix`: the second string is a suffix of the
first.  The check is byte-wise in Go; on the character lists of valid
UTF-8 strings and an ASCII suffix such as ".toml" the two agree. -/
def hasSuffix (s post : String) : Bool := post.data.isSuffixOf s.data

/-- Strict comparison of characters by code point, matching the
byte-wise comparison Go performs on their UTF-8 encodings. -/
def charLt (a b : Char) : Bool := a.toNat < b.toNat

/-- Strict lexicographic comparison of character lists. -/
def charListLt : List Char → List Char → Bool
  | [], [] => false
  | [], _ :: _ => true
  | _ :: _, [] => false
  | a :: as, b :: bs => charLt a b || (a = b && charListLt as bs)

/-- The strict lexicographic string comparison `sort.Strings` sorts by:
byte-wise on the UTF-8 encodings, which coincides with code-point order
on the character lists. -/
def strLt (a b : String) : Bool := charListLt a.data b.data

/-- Insert a string into a list, keeping ascending order under `strLt`. -/
def insertSorted (s : String) : List String → List String
  | [] => [s]
  | t :: ts => if strLt t s then t :: insertSorted s ts else s :: t :: ts

/-- Mirror of `sort.Strings`: sort ascending in lexicographic order. -/
def sortStrings (l : List String) : List String := l.foldr insertSorted []

/-- Mirror of method `ConfigSource.findDropInFiles`: sorted paths of the
drop-in files, the empty list when the directory does not exist. -/
def ConfigSource.findDropInFiles (cs : ConfigSource) (fs : FS) :
    Except ReadError (List String) :=
  match fs.dir cs.DropInDir with
  | .notExist => .ok []
  | .readFailure => .error .dropInDirRead
  | .entries es =>
      .ok (sortStrings ((es.filter
            (fun e => !e.isDir && hasSuffix e.name ".toml")).map
          (fun e => pathJoin cs.DropInDir e.name)))

/-- The read-and-parse loop of `ConfigSource.parseDropInFiles`: reads the
files in order and stops at the first read or parse failure. -/
def readDropInDocs (fs : FS) : List String → Except ReadError (List configDTO)
  | [] => .ok []
  | p :: ps =>
    match fs.read p with
    | .notExist => .error (.dropInRead p)
    | .readFailure => .error (.dropInRead p)
    | .content .malformed => .error (.dropInParse p)
    | .content (.valid dto) =>
      match readDropInDocs fs ps with
      | .error e => .error e
      | .ok dtos => .ok (dto :: dtos)

/-- Mirror of method `ConfigSource.parseDropInFiles`. -/
def ConfigSource.parseDropInFiles (cs : ConfigSource) (fs : FS) :
    Except ReadError (List configDTO) :=
  match cs.findDropInFiles fs with
  | .error e => .error e
  | .ok paths => readDropInDocs fs paths

/-- The final stage of `Read`: parse every drop-in file, and on success
fold their records onto the accumulated value. -/
def applyDropIns (cs : ConfigSource) (fs : FS) (resolved : Config) :
    Config × Option ReadError :=
  match cs.parseDropInFiles fs with
  | .error e => (resolved, some e)
  | .ok dtos => (dtos.foldl Config.Update resolved, none)

/-- Mirror of method `ConfigSource.Read`.  The `baseline` argument is the
parse result of the embedded default document (the source parses the
embedded string `defaultConfig`); the pair mirrors the Go result
`(Config, error)` with `none` for a nil error. -/
def ConfigSource.Read (cs : ConfigSource) (baseline : Doc) (fs : FS) :
    Config × Option ReadError :=
  match baseline with
  | .malformed => (zeroConfig, some .baselineParse)
  | .valid dto =>
    let resolved := zeroConfig.Update dto
    match fs.read cs.Path with
    | .readFailure => (resolved, some .mainLoad)
    | .content .malformed => (resolved, some .mainParse)
    | .notExist => applyDropIns cs fs resolved
    | .content (.valid mainDTO) => applyDropIns cs fs (resolved.Update mainDTO)

/-- The fixed source the package initializer resolves against. -/
def defaultSource : ConfigSource :=
  { Path := "/etc/rhc/config.toml", DropInDir := "/etc/rhc/config.toml.d/" }

/-- Modelled from the spec: the embedded baseline document
`data/etc/config.toml` is compiled into the binary and is not among the
provided source files.  Per the spec it defines every recognized field
with a safe default: log level INFO, the three path fields empty. -/
def defaultConfigDTO : configDTO :=
  { CertFile := some "", KeyFile := some "", LogLevel := some "INFO", CADir := some "" }

/-- The parse result of the embedded baseline document. -/
def defaultConfigDoc : Doc := .valid defaultConfigDTO

/-- Mirror of the package initializer `init`: resolve against the fixed
source; on any failure, re-parse the embedded baseline and apply it onto
the partially-resolved value, with `none` modelling the panic taken when
the baseline itself does not parse. -/
def initConfiguration (baseline : Doc) (fs : FS) : Option Config :=
  let r := defaultSource.Read baseline fs
  match r.2 with
  | none => some r.1
  | some _ =>
    match baseline with
    | .malformed => none
    | .valid dto => some (r.1.Update dto)

/-- Closed form of `Config.Update`, field by field. -/
theorem Update_eq (c : Config) (d : configDTO) :
    Config.Update c d =
      { CADir := d.CADir.getD c.CADir
        CertFile := d.CertFile.getD c.CertFile
        KeyFile := d.KeyFile.getD c.KeyFile
        LogLevel := match d.LogLevel with
          | some s => (levelOf s).getD c.LogLevel
          | none => c.LogLevel } := by
  obtain ⟨cf, kf, ll, cd⟩ := d
  cases cf <;> cases kf <;> cases cd <;> cases ll <;>
    simp only [Config.Update, levelOf, Option.getD_some, Option.getD_none] <;>
    try rfl
  all_goals (split_ifs <;> rfl)

/-- Applying the all-fields-present baseline record erases every prior
field value, so the result does not depend on the starting point. -/
theorem Update_all_present (c : Config) :
    Config.Update c defaultConfigDTO = Config.Update zeroConfig defaultConfigDTO := rfl

/-- A filesystem with no main file and no drop-in directory. -/
def fsEmpty : FS := { read := fun _ => .notExist, dir := fun _ => .notExist }

/-- A filesystem on which every file read fails. -/
def fsC3 : FS := { read := fun _ => .readFailure, dir := fun _ => .notExist }

/-- C4: for every Config value and every overlay record, each field the
overlay marks absent keeps its prior value under Update, whatever that
prior value is; only present fields may change. -/
theorem c4_absent_fields_unchanged (c : Config) (d : configDTO) :
    (d.CertFile = none → (Config.Update c d).CertFile = c.CertFile)
    ∧ (d.KeyFile = none → (Config.Update c d).KeyFile = c.KeyFile)
    ∧ (d.LogLevel = none → (Config.Update c d).LogLevel = c.LogLevel)
    ∧ (d.CADir = none → (Config.Update c d).CADir = c.CADir) := by
  refine ⟨fun h => ?_, fun h => ?_, fun h => ?_, fun h => ?_⟩ <;> simp [Update_eq, h]

/-- Witness for C4 at a concrete prior value and the all-absent record. -/
theorem c4_witness :
    (Config.Update ⟨"/ca", "/cert", "/key", 4⟩ ⟨none, none, none, none⟩).CertFile = "/cert"
    ∧ (Config.Update ⟨"/ca", "/cert", "/key", 4⟩ ⟨none, none, none, none⟩).KeyFile = "/key"
    ∧ (Config.Update ⟨"/ca", "/cert", "/key", 4⟩ ⟨none, none, none, none⟩).LogLevel = 4
    ∧ (Config.Update ⟨"/ca", "/cert", "/key", 4⟩ ⟨none, none, none, none⟩).CADir = "/ca" := by
  obtain ⟨h1, h2, h3, h4⟩ :=
    c4_absent_fields_unchanged ⟨"/ca", "/cert", "/key", 4⟩ ⟨none, none, none, none⟩
  exact ⟨h1 rfl, h2 rfl, h3 rfl, h4 rfl⟩

/-- C5 counterexample: an overlay whose log-level field is present with
the value "debug" does not set the log level to any fixed value; the
result still depends on the prior value, refuting the claim that every
present field is set to exactly the overlay value regardless of the
prior value. -/
theorem c5_counterexample :
    (configDTO.mk none none (some "debug") none).LogLevel = some "debug"
    ∧ (Config.Update ⟨"", "", "", LevelWarn⟩ ⟨none, none, some "debug", none⟩).LogLevel
        = LevelWarn
    ∧ (Config.Update ⟨"", "", "", LevelError⟩ ⟨none, none, some "debug", none⟩).LogLevel
        = LevelError
    ∧ LevelWarn ≠ LevelError := by decide

/-- C5 amended: for the three string fields, a present value V (empty
string included) is written exactly, regardless of the prior value; for
the log-level field, a present recognized token sets the corresponding
level regardless of the prior value, while a present unrecognized token
leaves the prior level unchanged. -/
theorem c5_present_fields_overwrite (c : Config) (d : configDTO) :
    (∀ v, d.CertFile = some v → (Config.Update c d).CertFile = v)
    ∧ (∀ v, d.KeyFile = some v → (Config.Update c d).KeyFile = v)
    ∧ (∀ v, d.CADir = some v → (Config.Update c d).CADir = v)
    ∧ (∀ s l, d.LogLevel = some s → levelOf s = some l →
        (Config.Update c d).LogLevel = l)
    ∧ (∀ s, d.LogLevel = some s → levelOf s = none →
        (Config.Update c d).LogLevel = c.LogLevel) := by
  refine ⟨fun v h => ?_, fun v h => ?_, fun v h => ?_,
    fun s l hs hl => ?_, fun s hs hl => ?_⟩ <;> simp [Update_eq, *]

/-- Witness for the amended C5: a drop-in record that sets cert-file to
the empty string over a non-empty prior path, and log level DEBUG. -/
theorem c5_witness :
    (Config.Update ⟨"/ca0", "/main.pem", "/k0", 0⟩
        ⟨some "", some "/k", some "DEBUG", some "/ca"⟩).CertFile = ""
    ∧ (Config.Update ⟨"/ca0", "/main.pem", "/k0", 0⟩
        ⟨some "", some "/k", some "DEBUG", some "/ca"⟩).LogLevel = LevelDebug := by
  refine ⟨(c5_present_fields_overwrite _ _).1 "" rfl, ?_⟩
  exact (c5_present_fields_overwrite ⟨"/ca0", "/main.pem", "/k0", 0⟩
    ⟨some "", some "/k", some "DEBUG", some "/ca"⟩).2.2.2.1 "DEBUG" LevelDebug rfl rfl

/-- C10: Update is idempotent: applying the same overlay record twice in
succession gives the same Config as applying it once. -/
theorem c10_update_idempotent (c : Config) (d : configDTO) :
    Config.Update (Config.Update c d) d = Config.Update c d := by
  simp only [Update_eq]
  obtain ⟨cf, kf, ll, cd⟩ := d
  cases cf <;> cases kf <;> cases cd <;> cases ll <;> simp
  all_goals (rename_i s; cases hls : levelOf s <;> simp [hls])

/-- C7: with no main file and no drop-in directory, Read returns a nil
error and exactly the configuration obtained by applying the embedded
baseline record to the zero-valued Config. -/
theorem c7_no_files_baseline_only (cs : ConfigSource) (b : configDTO) (fs : FS)
    (hmain : fs.read cs.Path = .notExist)
    (hdir : fs.dir cs.DropInDir = .notExist) :
    cs.Read (.valid b) fs = (Config.Update zeroConfig b, none) := by
  simp [ConfigSource.Read, applyDropIns, ConfigSource.parseDropInFiles,
    ConfigSource.findDropInFiles, readDropInDocs, hmain, hdir]

/-- Witness for C7 on the empty filesystem with the modelled baseline. -/
theorem c7_witness :
    defaultSource.Read (.valid defaultConfigDTO) fsEmpty
      = (Config.Update zeroConfig defaultConfigDTO, none) :=
  c7_no_files_baseline_only defaultSource defaultConfigDTO fsEmpty rfl rfl

/-- C8: a main configuration file that exists but is malformed stops the
resolution: Read returns the baseline-only value together with the parse
error, and no drop-in overlay is applied to the returned value. -/
theorem c8_malformed_main_aborts (cs : ConfigSource) (b : configDTO) (fs : FS)
    (hmain : fs.read cs.Path = .content .malformed) :
    cs.Read (.valid b) fs = (Config.Update zeroConfig b, some .mainParse) := by
  simp [ConfigSource.Read, hmain]

/-- A filesystem whose main file is malformed while the drop-in
directory holds a valid override. -/
def fsC8 : FS :=
  { read := fun p =>
      if p = defaultSource.Path then .content .malformed
      else .content (.valid ⟨some "/dropin.pem", none, none, none⟩),
    dir := fun _ => .entries [⟨"10-x.toml", false⟩] }

/-- Witness for C8: even with a valid drop-in present, the returned value
is the baseline-only configuration plus the main-file parse error. -/
theorem c8_witness :
    defaultSource.Read (.valid defaultConfigDTO) fsC8
      = (Config.Update zeroConfig defaultConfigDTO, some .mainParse) :=
  c8_malformed_main_aborts defaultSource defaultConfigDTO fsC8 rfl

/-- C9: an overlay whose log-level field is present with a string outside
DEBUG, INFO, WARN, ERROR leaves the log level at its prior value, and a
resolution whose documents all parse still returns a nil error. -/
theorem c9_invalid_loglevel_ignored (c : Config) (d : configDTO) (s : String)
    (hs : d.LogLevel = some s)
    (hout : s ∉ (["DEBUG", "INFO", "WARN", "ERROR"] : List String))
    (cs : ConfigSource) (b : configDTO) (fs : FS) (dtos : List configDTO)
    (_hmem : d ∈ dtos)
    (hmain : fs.read cs.Path = .notExist ∨ ∃ m, fs.read cs.Path = .content (.valid m))
    (hdrop : cs.parseDropInFiles fs = .ok dtos) :
    (Config.Update c d).LogLevel = c.LogLevel
    ∧ (cs.Read (.valid b) fs).2 = none := by
  simp only [List.mem_cons, List.not_mem_nil, or_false, not_or] at hout
  obtain ⟨h1, h2, h3, h4⟩ := hout
  constructor
  · simp [Update_eq, hs, levelOf, h1, h2, h3, h4]
  · rcases hmain with h | ⟨m, h⟩ <;>
      simp [ConfigSource.Read, applyDropIns, h, hdrop]

/-- A filesystem whose single drop-in file carries the unrecognized
log-level token "debug". -/
def fsC9 : FS :=
  { read := fun p =>
      if p = pathJoin defaultSource.DropInDir "10-level.toml"
        then .content (.valid ⟨none, none, some "debug", none⟩)
        else .notExist,
    dir := fun _ => .entries [⟨"10-level.toml", false⟩] }

/-- Witness for C9 at the token "debug" with prior level WARN. -/
theorem c9_witness :
    (Config.Update ⟨"", "", "", 4⟩ ⟨none, none, some "debug", none⟩).LogLevel = 4
    ∧ (defaultSource.Read (.valid defaultConfigDTO) fsC9).2 = none :=
  c9_invalid_loglevel_ignored ⟨"", "", "", 4⟩ ⟨none, none, some "debug", none⟩
    "debug" rfl (by decide) defaultSource defaultConfigDTO fsC9
    [⟨none, none, some "debug", none⟩] (by decide) (Or.inl rfl) (by rfl)

/-- C2 counterexample: on a malformed baseline document, Read returns the
parse failure as an ordinary error value to its caller, together with the
zero-valued Config, rather than treating it as fatal inside Read. -/
theorem c2_counterexample :
    defaultSource.Read .malformed fsEmpty = (zeroConfig, some .baselineParse) := rfl

/-- C2 amended: Read surfaces a baseline parse failure as an ordinary
returned error; the fatal, non-recoverable treatment happens only in the
package initializer, whose fallback re-parse of the baseline fails again
and panics (modelled by the `none` result). -/
theorem c2_baseline_failure_ordinary_in_read_fatal_in_init (fs : FS) :
    (defaultSource.Read .malformed fs).2 = some .baselineParse
    ∧ initConfiguration .malformed fs = none := ⟨rfl, rfl⟩

/-- C3: whenever the startup resolution fails, the process-wide store is
populated with exactly the configuration obtained from the embedded
baseline record alone, applied to the zero-valued Config. -/
theorem c3_init_fallback_baseline_only (fs : FS)
    (h : (defaultSource.Read defaultConfigDoc fs).2 ≠ none) :
    initConfiguration defaultConfigDoc fs
      = some (Config.Update zeroConfig defaultConfigDTO) := by
  have hdef : initConfiguration defaultConfigDoc fs
      = match (defaultSource.Read defaultConfigDoc fs).2 with
        | none => some (defaultSource.Read defaultConfigDoc fs).1
        | some _ => some ((defaultSource.Read defaultConfigDoc fs).1.Update
            defaultConfigDTO) := rfl
  rw [hdef]
  cases herr : (defaultSource.Read defaultConfigDoc fs).2 with
  | none => exact absurd herr h
  | some e => exact congrArg some (Update_all_present _)

/-- Witness for C3 on a filesystem whose main file read fails. -/
theorem c3_witness :
    initConfiguration defaultConfigDoc fsC3
      = some (Config.Update zeroConfig defaultConfigDTO) :=
  c3_init_fallback_baseline_only fsC3 (by decide)

/-- A character does not compare strictly below itself. -/
theorem charLt_irrefl (c : Char) : charLt c c = false := by
  simp [charLt]

/-- Lexicographic comparison of character lists ignores a common prefix. -/
theorem charListLt_append (p x y : List Char) :
    charListLt (p ++ x) (p ++ y) = charListLt x y := by
  induction p with
  | nil => rfl
  | cons c cs ih => simp [charListLt, charLt_irrefl, ih]

/-- Lexicographic comparison of character lists is asymmetric. -/
theorem charListLt_asymm :
    ∀ {x y : List Char}, charListLt x y = true → charListLt y x = false
  | [], [], h => by simp [charListLt] at h
  | [], _ :: _, _ => rfl
  | _ :: _, [], h => by simp [charListLt] at h
  | a :: as, b :: bs, h => by
    simp only [charListLt, Bool.or_eq_true, Bool.and_eq_true] at h
    rcases h with h | ⟨hab, h⟩
    · have h' : a.toNat < b.toNat := by
        simpa [charLt] using h
      have hba : charLt b a = false := by
        simp only [charLt, decide_eq_false_iff_not]
        exact Nat.lt_asymm h'
      have hne : (decide (b = a)) = false := by
        simp only [decide_eq_false_iff_not]
        intro he
        subst he
        exact lt_irrefl _ h'
      simp [charListLt, hba, hne]
    · have hab' : a = b := of_decide_eq_true hab
      subst hab'
      simp [charListLt, charLt_irrefl, charListLt_asymm h]

/-- String comparison is asymmetric. -/
theorem strLt_asymm {a b : String} (h : strLt a b = true) : strLt b a = false :=
  charListLt_asymm h

/-- Joining two names onto the same directory preserves their relative
lexicographic order. -/
theorem strLt_pathJoin (d a b : String) :
    strLt (pathJoin d a) (pathJoin d b) = strLt a b := by
  show charListLt ((d ++ "/").data ++ a.data) ((d ++ "/").data ++ b.data)
      = charListLt a.data b.data
  exact charListLt_append _ _ _

/-- C6: with exactly two valid override files in the drop-in directory,
the file whose name is lexicographically greater wins on every field both
records define, for each of the four fields. -/
theorem c6_later_dropin_wins (cs : ConfigSource) (b : configDTO) (fs : FS)
    (ea eb : DirEntry) (da db : configDTO)
    (hmain : fs.read cs.Path = .notExist ∨ ∃ m, fs.read cs.Path = .content (.valid m))
    (hdir : fs.dir cs.DropInDir = .entries [ea, eb]
      ∨ fs.dir cs.DropInDir = .entries [eb, ea])
    (hda : ea.isDir = false) (hdb : eb.isDir = false)
    (hsa : hasSuffix ea.name ".toml" = true) (hsb : hasSuffix eb.name ".toml" = true)
    (hlt : strLt ea.name eb.name = true)
    (hra : fs.read (pathJoin cs.DropInDir ea.name) = .content (.valid da))
    (hrb : fs.read (pathJoin cs.DropInDir eb.name) = .content (.valid db)) :
    (∀ va vb, da.CertFile = some va → db.CertFile = some vb → va ≠ vb →
      (cs.Read (.valid b) fs).1.CertFile = vb)
    ∧ (∀ va vb, da.KeyFile = some va → db.KeyFile = some vb → va ≠ vb →
      (cs.Read (.valid b) fs).1.KeyFile = vb)
    ∧ (∀ va vb, da.CADir = some va → db.CADir = some vb → va ≠ vb →
      (cs.Read (.valid b) fs).1.CADir = vb)
    ∧ (∀ sa sb la lb, da.LogLevel = some sa → db.LogLevel = some sb →
      levelOf sa = some la → levelOf sb = some lb → la ≠ lb →
      (cs.Read (.valid b) fs).1.LogLevel = lb) := by
  have hplt : strLt (pathJoin cs.DropInDir ea.name) (pathJoin cs.DropInDir eb.name)
      = true := (strLt_pathJoin _ _ _).trans hlt
  have hnlt : strLt (pathJoin cs.DropInDir eb.name) (pathJoin cs.DropInDir ea.name)
      = false := strLt_asymm hplt
  have hpaths : cs.findDropInFiles fs
      = .ok [pathJoin cs.DropInDir ea.name, pathJoin cs.DropInDir eb.name] := by
    rcases hdir with h | h <;>
      simp [ConfigSource.findDropInFiles, h, hda, hdb, hsa, hsb, sortStrings,
        insertSorted, hplt, hnlt]
  have hdocs : cs.parseDropInFiles fs = .ok [da, db] := by
    simp [ConfigSource.parseDropInFiles, hpaths, readDropInDocs, hra, hrb]
  obtain ⟨c1, hc1⟩ : ∃ c1, cs.Read (.valid b) fs
      = (Config.Update (Config.Update c1 da) db, none) := by
    rcases hmain with h | ⟨m, h⟩
    · exact ⟨zeroConfig.Update b,
        by simp [ConfigSource.Read, applyDropIns, h, hdocs]⟩
    · exact ⟨(zeroConfig.Update b).Update m,
        by simp [ConfigSource.Read, applyDropIns, h, hdocs]⟩
  refine ⟨fun va vb h1 h2 hne => ?_, fun va vb h1 h2 hne => ?_,
    fun va vb h1 h2 hne => ?_, fun sa sb la lb h1 h2 h3 h4 hne => ?_⟩ <;>
    rw [hc1] <;> simp [Update_eq, *]

/-- A filesystem with two valid drop-in files defining all four fields
with different values. -/
def fsC6 : FS :=
  { read := fun p =>
      if p = pathJoin defaultSource.DropInDir "10-first.toml"
        then .content (.valid ⟨some "/a.pem", some "/a.key", some "WARN", some "/a"⟩)
      else if p = pathJoin defaultSource.DropInDir "20-second.toml"
        then .content (.valid ⟨some "/b.pem", some "/b.key", some "ERROR", some "/b"⟩)
      else .notExist,
    dir := fun _ =>
      .entries [⟨"10-first.toml", false⟩, ⟨"20-second.toml", false⟩] }

/-- Witness for C6: the file 20-second.toml overrides 10-first.toml. -/
theorem c6_witness :
    (defaultSource.Read (.valid defaultConfigDTO) fsC6).1.CertFile = "/b.pem"
    ∧ (defaultSource.Read (.valid defaultConfigDTO) fsC6).1.LogLevel = LevelError := by
  have h := c6_later_dropin_wins defaultSource defaultConfigDTO fsC6
    ⟨"10-first.toml", false⟩ ⟨"20-second.toml", false⟩
    ⟨some "/a.pem", some "/a.key", some "WARN", some "/a"⟩
    ⟨some "/b.pem", some "/b.key", some "ERROR", some "/b"⟩
    (Or.inl rfl) (Or.inl rfl) rfl rfl (by decide) (by decide) (by decide)
    (by rfl) (by rfl)
  exact ⟨h.1 "/a.pem" "/b.pem" rfl rfl (by decide),
    h.2.2.2 "WARN" "ERROR" LevelWarn LevelError rfl rfl rfl rfl (by decide)⟩

/-- Joined path of the valid override used for C1. -/
def dropInPath10 : String := pathJoin defaultSource.DropInDir "10-ok.toml"

/-- Joined path of the malformed override used for C1. -/
def dropInPath20 : String := pathJoin defaultSource.DropInDir "20-bad.toml"

/-- A filesystem whose drop-in directory holds the valid 10-ok.toml and
the malformed 20-bad.toml, with no main configuration file. -/
def fsC1 : FS :=
  { read := fun p =>
      if p = dropInPath10 then .content (.valid ⟨some "/ok.pem", none, none, none⟩)
      else if p = dropInPath20 then .content .malformed
      else .notExist,
    dir := fun _ => .entries [⟨"10-ok.toml", false⟩, ⟨"20-bad.toml", false⟩] }

/-- C1 counterexample: with 10-ok.toml valid (setting cert-file to the
path /ok.pem) and 20-bad.toml malformed, Read does return a non-nil
error, but the field set by 10-ok.toml is NOT reflected in the returned
Config: cert-file still holds the baseline value, because the source
parses every drop-in before applying any of them. -/
theorem c1_counterexample :
    (defaultSource.Read defaultConfigDoc fsC1).2 = some (.dropInParse dropInPath20)
    ∧ (defaultSource.Read defaultConfigDoc fsC1).1.CertFile = ""
    ∧ ¬ (defaultSource.Read defaultConfigDoc fsC1).1.CertFile = "/ok.pem" :=
  ⟨by rfl, by rfl, by decide⟩

/-- C1 amended: a parse failure on any drop-in file makes Read return a
non-nil error, and no drop-in record at all is applied, not even from
valid files sorting before the malformed one: the returned value is
exactly the one Read produces when the drop-in directory is absent. -/
theorem c1_parse_error_drops_all_dropins (cs : ConfigSource) (b : configDTO) (fs : FS)
    (e : ReadError)
    (hmain : fs.read cs.Path = .notExist ∨ ∃ m, fs.read cs.Path = .content (.valid m))
    (hdrop : cs.parseDropInFiles fs = .error e) :
    cs.Read (.valid b) fs
      = ((cs.Read (.valid b) { fs with dir := fun _ => .notExist }).1, some e) := by
  have h0 : cs.parseDropInFiles { fs with dir := fun _ => .notExist } = .ok [] := rfl
  rcases hmain with h | ⟨m, h⟩ <;>
    simp [ConfigSource.Read, applyDropIns, h, hdrop, h0]

/-- Witness for the amended C1 on the two-file filesystem. -/
theorem c1_witness :
    defaultSource.Read (.valid defaultConfigDTO) fsC1
      = ((defaultSource.Read (.valid defaultConfigDTO)
            { fsC1 with dir := fun _ => .notExist }).1,
        some (.dropInParse dropInPath20)) :=
  c1_parse_error_drops_all_dropins defaultSource defaultConfigDTO fsC1
    (.dropInParse dropInPath20) (Or.inl rfl) (by rfl)

end Conf
